import Mathlib

/-!
Verification development for the behavioral-modeling core of the
cocotbext-interfaces library (signal/control model, interface assembly,
behavioral model and its Avalon-ST instantiation).

The Python sources are shallowly embedded: pure computations become Lean
functions, Python `int` values become `Nat`/`Int` with the masking the code
performs made explicit, stateful methods become functions from a state record
to a new state record, and fallible code returns `Option`/`Except`.
-/

/-- Error kinds surfaced by the library: `InterfacePropertyError` (a
`ValueError` subclass used for construction-time property violations), plain
`ValueError` (raised by e.g. the `Control.allowance`/`latency` setters and by
`BaseModel.input`), and `InterfaceProtocolError`. -/
inductive Err
  | propertyError
  | valueError
  | protocolError
deriving DecidableEq

/-! ## Signal (signal.py, class Signal) -/

/-- The three logical types a `Signal` may carry (signal.py line 32:
`_allowed = Union[bool, int, BinaryValue]`). -/
inductive LType
  | bool
  | int
  | bv
deriving DecidableEq

/-- State of an instantiated `Signal` (signal.py class `Signal`): its polarity
(`logic_active_high`), its logical type, the bound handle's bit width
(`len(self.handle)`) and the value currently stored in the handle.  Values are
nonnegative machine integers, as produced by `BinaryValue.integer`. -/
structure Signal where
  logic_active_high : Bool
  logical_type : LType
  width : Nat
  handle : Nat
deriving DecidableEq

/-- Python evaluation of `~v & m` for nonnegative `v` and `m` (the expression
the source applies on both drive and capture, with `m = len(self.handle)`):
`~v` is `v` with every bit flipped (all bits above `v` set), so `~v & m` keeps
exactly the bits of `m` that are clear in `v`, which equals `m - (v &&& m)`. -/
def pyNotAnd (v m : Nat) : Nat := m - Nat.land v m

/-- Embedding of `Signal.drive` (signal.py lines 68-88) on an instantiated
signal holding a well-typed value.  The optional filter is the callable bound
to `self.filter`; the source invokes it at line 79, before the active-low
inversion at lines 81-85.  A filter can only change the driven value by
mutating its argument in place, which is possible for a `BinaryValue` argument
but not for the immutable `bool`/`int` types, whose filter call's result is
discarded.  Returns the updated signal and the value the filter was invoked
on. -/
def Signal.drive (s : Signal) (fil : Option (Nat → Nat)) (v : Nat) : Signal × Nat :=
  let observed := v
  let v1 := match fil with
    | some f => if s.logical_type = .bv then f v else v
    | none => v
  let v2 := if s.logic_active_high then v1 else pyNotAnd v1 s.width
  ({ s with handle := v2 }, observed)

/-- Embedding of `Signal.capture` (signal.py lines 45-66) on an instantiated
signal with a resolvable handle value.  The active-low inversion (lines 54-55)
runs first, the filter (lines 57-58) runs on the inverted `BinaryValue` —
mutating it in place if it chooses to — and the logical-type conversion
(lines 62-66) runs last (`bool(val.integer)` for bool, `val.integer` for int,
the raw vector otherwise).  Returns the converted value and the value the
filter was invoked on. -/
def Signal.capture (s : Signal) (fil : Option (Nat → Nat)) : Nat × Nat :=
  let val := s.handle
  let val1 := if s.logic_active_high then val else pyNotAnd val s.width
  let observed := val1
  let val2 := match fil with
    | some f => f val1
    | none => val1
  let out := match s.logical_type with
    | .int => val2
    | .bv => val2
    | .bool => if val2 ≠ 0 then 1 else 0
  (out, observed)

/-! ## Control cache and generator (signal.py, class Control) -/

/-- Cache-relevant state of a `Control` (signal.py class `Control`):
whether a generator is attached (`generated`) and the cached sample
(`self._cache`). -/
structure Control where
  generated : Bool
  cache : Option Bool
deriving DecidableEq

/-- Embedding of `Control.clear` (signal.py lines 249-251): sets the cache to
`None`. -/
def Control.clear (c : Control) : Control := { c with cache := none }

/-- Embedding of `Control.capture` (signal.py lines 237-242) for a generated
control; the attached generator is a list of pending boolean values and
`self.next()` (lines 347-351) pulls its head.  When the cache is empty the
control drives the pulled value, which caches it (`Control.drive`,
lines 244-247); when the cache holds a value it is returned and the generator
is untouched.  Returns `none` when the control is not generated (that branch
delegates to `Signal.capture`) or the generator is exhausted.  The result is
the captured value together with the updated control and generator. -/
def Control.captureGen (c : Control) (gen : List Bool) : Option (Bool × Control × List Bool) :=
  if c.generated = false then none
  else match c.cache with
    | some v => some (v, c, gen)
    | none =>
      match gen with
      | v :: rest => some (v, { c with cache := some v }, rest)
      | [] => none

/-! ## Event loop (model.py, BaseModel._event_loop) -/

/-- Machine state observed by one event-loop tick right after the `advance`
trigger has settled: the hierarchical state's qualified name (`self.state`),
the `influences` list of the reached state, and the interface's control caches
keyed by control name. -/
structure LoopState where
  stateName : String
  influences : List String
  caches : List (String × Control)
deriving DecidableEq

/-- Embedding of `BaseModel._event_loop` (model.py lines 481-508) after the
`advance` trigger: the post-advance machine state is the input.  The loop
raises `InterfaceProtocolError` exactly when `self.state == 'TOP_NULL'`
(lines 494-495).  The influence cache-clearing loop at lines 497-499 is
commented out in the source, so the caches pass through unchanged; the
reaction dispatch (lines 501-506) does not touch the caches either and is
outside the scope of this step. -/
def eventLoopAfterAdvance (s : LoopState) : Except Err LoopState :=
  if s.stateName = "TOP_NULL" then .error .protocolError else .ok s

/-- The same event-loop step as the specification words it, for comparison
with `eventLoopAfterAdvance`: "For each control in the leaf's influences,
clear its cached value (forcing next-tick resampling or regeneration)" —
every control named in the reached state's `influences` has `Control.clear`
applied to it. -/
def specEventLoopAfterAdvance (s : LoopState) : Except Err LoopState :=
  if s.stateName = "TOP_NULL" then .error .protocolError
  else .ok { s with
    caches := s.caches.map (fun p =>
      if s.influences.contains p.1 then (p.1, Control.clear p.2) else p) }

/-- Concrete post-advance machine state for exercising the cache-clearing
step: the machine sits in a flow leaf of the `valid` control nest, whose
`influences` list names `valid`, and the generated `valid` control holds a
cached sample. -/
def c1State : LoopState :=
  { stateName := "TOP_ROOT_VALID_FLW_TRUE"
    influences := ["valid"]
    caches := [("valid", { generated := true, cache := some true })] }

/-! ## Elaborated state hierarchy (model.py, BaseModel._elaborate) -/

/-- A transition record as produced by `_elaborate` (model.py): trigger name,
source state names, destination (`none` encodes a reflexive transition). -/
structure Transition where
  trigger : String
  source : List String
  dest : Option String
deriving DecidableEq

/-- A node of the elaborated state description (model.py `node` helper, lines
115-140), restricted to its data fields: name, tags, children, initial child
and transitions.  Callback fields (`on_enter`, `conditions`, `reactions`,
`influences`) are Python closures and are not needed for the structural
facts proved here. -/
inductive Node
  | mk (name : String) (tags : List String) (children : List Node)
      (initial : Option String) (transitions : List Transition)

/-- Name of an elaborated node. -/
def Node.name : Node → String
  | .mk n _ _ _ _ => n

/-- Tags of an elaborated node. -/
def Node.tags : Node → List String
  | .mk _ t _ _ _ => t

/-- Children of an elaborated node. -/
def Node.children : Node → List Node
  | .mk _ _ c _ _ => c

instance : Inhabited Node := ⟨.mk "" [] [] none []⟩

/-- The body the elaboration starts from (model.py line 404:
`bh = node(name='ROOT', tags=['flow'])`), before any control level is
added. -/
def rootBase : Node := .mk "ROOT" ["flow"] [] none []

/-- Embedding of the top-level wrapper `_elaborate` returns (model.py lines
411-419): a `TOP` state whose children are `NULL` — tagged `fix` — and the
elaborated body, with initial child `NULL` and the `advance` transitions
`NULL → ROOT` and `ROOT → NULL`. -/
def topWrapper (bh : Node) : Node :=
  .mk "TOP" [] [.mk "NULL" ["fix"] [] none [], bh] (some "NULL")
    [ { trigger := "advance", source := ["NULL"], dest := some "ROOT" }
    , { trigger := "advance", source := ["ROOT"], dest := some "NULL" } ]

/-- Qualified name of a nested state: the `transitions` HSM runtime joins the
names along the path from the root with the `_` separator, which is how the
machine state of the `NULL` child of `TOP` reads `TOP_NULL` in
`BaseModel._event_loop`. -/
def qualName (path : List String) : String := String.intercalate "_" path

/-! ## Interface transactions (core.py, BaseInterface._txn) -/

/-- Signal directions (signal.py class `Direction`). -/
inductive Direction
  | FROM_PRIMARY
  | TO_PRIMARY
  | BIDIRECTIONAL
deriving DecidableEq

/-- The attributes of a `Signal` that `BaseInterface._txn` consults: name,
whether a handle is bound (`instantiated`), the `meta` flag and the
direction. -/
structure SigSpec where
  name : String
  instantiated : Bool
  meta : Bool
  direction : Direction
deriving DecidableEq

/-- Embedding of the direction selection in `BaseInterface._txn` (core.py
lines 115-116): `d = FROM_PRIMARY if primary else (BIDIRECTIONAL if primary
is None else TO_PRIMARY)`; the Python conditional tests truthiness, so only
`primary = some true` selects the first branch. -/
def roleDir (primary : Option Bool) : Direction :=
  if primary = some true then .FROM_PRIMARY
  else if primary = none then .BIDIRECTIONAL
  else .TO_PRIMARY

/-- Embedding of `BaseInterface._txn` (core.py lines 108-119): the names of
signals that are instantiated, not meta, and whose direction matches the
requested role. -/
def BaseInterface.txn (sigs : List SigSpec) (primary : Option Bool) : List String :=
  (sigs.filter (fun s => s.instantiated && !s.meta && s.direction == roleDir primary)).map
    (fun s => s.name)

/-- Direction selection exactly as the claim words it, for comparison with
the source's `roleDir`: FROM_PRIMARY when primary is True, TO_PRIMARY when
primary is False, BIDIRECTIONAL when primary is None. -/
def claimDir : Option Bool → Direction
  | some true => .FROM_PRIMARY
  | some false => .TO_PRIMARY
  | none => .BIDIRECTIONAL

/-! ## Model input (model.py, BaseModel.input and BaseModel._load) -/

/-- A Python `collections.deque` of values is represented as a list whose
head is the deque's leftmost element; `extendleft(v)` (used by
`BaseModel._load`, model.py lines 427-430) pushes the elements of `v` one by
one onto the left end, reversing their order. -/
def dqExtendleft (d v : List Int) : List Int := v.reverse ++ d

/-- Popping the right end of a deque (`deque.pop()`); `none` when the deque
is empty (Python raises `IndexError`). -/
def dqPop (d : List Int) : Option (Int × List Int) :=
  match d.getLast? with
  | some x => some (x, d.dropLast)
  | none => none

/-- Embedding of `BaseModel._load` (model.py lines 427-430) over a buffer
keyed by signal name: each key of the transaction has its value sequence
`extendleft`-ed onto the corresponding deque. -/
def BaseModel.load (buff txn : List (String × List Int)) : List (String × List Int) :=
  buff.map (fun p =>
    match txn.find? (fun q => q.1 == p.1) with
    | some q => (p.1, dqExtendleft p.2 q.2)
    | none => p)

/-- State of a `BaseModel` relevant to `input`: the interface's signals, the
model's role flag (`self.primary`), the busy flag and the per-signal buffer. -/
structure BaseModelState where
  itf : List SigSpec
  primary : Option Bool
  busy : Bool
  buff : List (String × List Int)
deriving DecidableEq

/-- Python set equality of two name collections. -/
def setEqB (a b : List String) : Bool := a.all b.contains && b.all a.contains

/-- Embedding of the synchronous prefix of `BaseModel.input` (model.py lines
444-462): the key-set check `set(txn.keys()) != self.itf._txn(primary=...)`
comes first and raises `ValueError`, before `acquire` sets the busy flag and
before `_load` touches any buffer; otherwise the model becomes busy with the
transaction loaded.  Returns the model state after this prefix paired with
the raised error, if any. -/
def BaseModel.input (m : BaseModelState) (txn : List (String × List Int)) :
    BaseModelState × Option Err :=
  if setEqB (txn.map (fun p => p.1)) (BaseInterface.txn m.itf m.primary) = false then
    (m, some .valueError)
  else
    ({ m with busy := true, buff := BaseModel.load m.buff txn }, none)

/-! ## Interface assembly (core.py, BaseInterface._specify) -/

/-- The attributes of a signal that `BaseInterface._specify` consults:
Python object identity (`sid`), name, whether the object is a `Control`, and
its precedence (meaningful only for controls). -/
structure Sig where
  sid : Nat
  name : String
  isCtl : Bool
  precedence : Int
deriving DecidableEq

/-- Python `==` between members of an interface's signal set:
`Control.__eq__` (signal.py lines 224-227) compares two controls by
precedence alone; comparisons involving a non-control fall back to object
identity (plain `Signal` defines no `__eq__`). -/
def sigBEq (a b : Sig) : Bool :=
  if a.isCtl && b.isCtl then a.precedence == b.precedence else a.sid == b.sid

/-- Python `hash()` of a signal object: `Control.__hash__` (signal.py lines
229-230) returns the precedence; a plain `Signal` uses the default
identity-based hash, modeled by its object id. -/
def pyHash (s : Sig) : Int :=
  if s.isCtl then s.precedence else (s.sid : Int)

/-- A member of a CPython set together with the hash the set stored for it
when it was inserted.  CPython never rehashes a stored element: mutating a
stored control's precedence in place (as `_specify`'s `precedes` branch does,
core.py lines 82-84) leaves the stored hash stale. -/
structure StoredSig where
  sig : Sig
  storedHash : Int
deriving DecidableEq

/-- Statement that every stored element's hash is still its current hash,
which holds as long as no in-place precedence shift has touched a stored
control since its insertion. -/
def hashFresh (l : List StoredSig) : Prop :=
  ∀ t ∈ l, t.storedHash = pyHash t.sig

/-- CPython `set.add`: the table is probed with the hash of the new element,
and an existing entry matches only if its stored hash equals that hash and
the elements compare equal (`==`); on a match the old member is kept and the
new element is silently dropped, otherwise the element is inserted with its
current hash.  An entry whose stored hash differs from the probe hash is
never found, even if it would compare equal. -/
def pyAdd (l : List StoredSig) (s : Sig) : List StoredSig :=
  if l.any (fun t => t.storedHash == pyHash s && sigBEq t.sig s) then l
  else l ++ [{ sig := s, storedHash := pyHash s }]

/-- Maximum precedence over the controls of a signal list: `self.pmax`
(core.py lines 32-34) and, applied to a spec, the
`max(c for c in spec if isinstance(c, Control)).precedence` of `_specify`
(core.py line 80).  `none` when the list holds no control. -/
def pmaxOf : List Sig → Option Int
  | [] => none
  | s :: rest =>
    let r := pmaxOf rest
    if s.isCtl then
      some (match r with
        | none => s.precedence
        | some m => max s.precedence m)
    else r

/-- Shifting every control of a list up by `d` (the
`c.precedence += (offset + 1)` loops of `_specify`, core.py lines 82-89). -/
def shiftControls (l : List Sig) (d : Int) : List Sig :=
  l.map (fun s => if s.isCtl then { s with precedence := s.precedence + d } else s)

/-- Embedding of the precedence-adjustment step of `BaseInterface._specify`
(core.py lines 78-89): if the spec contains controls then with `precedes`
the offset is the maximum precedence among the new controls and every
pre-existing control is shifted up by `offset + 1`, otherwise the offset is
the interface's `pmax` and every new control is shifted up by `offset + 1`;
a `None` offset (no pre-existing controls) shifts nothing.  Returns the
updated existing signals and the updated spec. -/
def specifyPrec (existing spec : List Sig) (precedes : Bool) : List Sig × List Sig :=
  if spec.any (fun s => s.isCtl) then
    if precedes then
      match pmaxOf spec with
      | some off => (shiftControls existing (off + 1), spec)
      | none => (existing, spec)
    else
      match pmaxOf existing with
      | some off => (existing, shiftControls spec (off + 1))
      | none => (existing, spec)
  else (existing, spec)

/-- The precedence-adjustment step of `_specify` (core.py lines 78-89)
acting on the members already stored in the `_signals` set: the same
computation as `specifyPrec`, except that the `precedes` branch mutates the
stored controls in place, shifting their `sig` precedences without touching
the stale `storedHash` (CPython does not rehash on mutation).  The new
controls of `spec` are shifted before they are added, so their hashes are
computed after the shift. -/
def specifyPrecStored (existing : List StoredSig) (spec : List Sig) (precedes : Bool) :
    List StoredSig × List Sig :=
  if spec.any (fun s => s.isCtl) then
    if precedes then
      match pmaxOf spec with
      | some off =>
        (existing.map (fun t =>
          { t with sig := if t.sig.isCtl
              then { t.sig with precedence := t.sig.precedence + (off + 1) }
              else t.sig }), spec)
      | none => (existing, spec)
    else
      match pmaxOf (existing.map (fun t => t.sig)) with
      | some off => (existing, shiftControls spec (off + 1))
      | none => (existing, spec)
  else (existing, spec)

/-- Embedding of `BaseInterface._specify` (core.py lines 55-106) over the
stored set: the duplicate-name check (lines 75-76) raises `ValueError`; the
precedence adjustment runs next, mutating stored controls in place; finally
every spec signal is added to the `_signals` set (`self._signals.add(s)`,
line 105) with CPython's stored-hash semantics.  Handle binding and filter
attachment (lines 92-103) mutate the individual signals but not the
membership of the set and are out of scope here. -/
def BaseInterface.specify (existing : List StoredSig) (spec : List Sig) (precedes : Bool) :
    Except Err (List StoredSig) :=
  if existing.any (fun s => spec.any (fun t => s.sig.name == t.name)) then .error .valueError
  else
    let p := specifyPrecStored existing spec precedes
    .ok (p.2.foldl pyAdd p.1)

/-- Statement that a signal list holds at most one control per precedence
value: no two controls of the list share a precedence. -/
def noDupCtl (l : List Sig) : Prop :=
  List.Pairwise
    (fun a b => ¬ (a.isCtl = true ∧ b.isCtl = true ∧ a.precedence = b.precedence)) l

/-! ## Streaming interface construction (avalon/streaming.py) -/

/-- Embedding of the `ready` branch of `StreamingInterface.__init__`
(avalon/streaming.py lines 113-131) for an instantiated `ready` signal:
`ready_allowance` and `ready_latency` default to 0 when not provided; the
`readyLatency <= readyAllowance` constraint raises `InterfacePropertyError`;
then `self['ready'].allowance` and `.latency` are assigned in that order, and
each setter (signal.py lines 308-324) raises a plain `ValueError` when the
value falls outside `[0, max]`, where the `ready` control declares
`max_allowance = max_latency = 8` (streaming.py line 29).  Returns the
accepted `(ready_latency, ready_allowance)` pair. -/
def StreamingInterface.readyConfig (ready_latency ready_allowance : Option Int) :
    Except Err (Int × Int) :=
  let ra := ready_allowance.getD 0
  let rl := ready_latency.getD 0
  if rl > ra then .error .propertyError
  else if ¬ (8 ≥ ra ∧ ra ≥ 0) then .error .valueError
  else if ¬ (8 ≥ rl ∧ rl ≥ 0) then .error .valueError
  else .ok (rl, ra)

/-! ## Streaming source model (avalon/streaming.py, SourceModel.valid_cycle) -/

/-- The interface facts `SourceModel.valid_cycle` consults: which payload
signals are instantiated and whether `valid` is instantiated or generated. -/
structure SrcItf where
  chInst : Bool
  dataInst : Bool
  errInst : Bool
  validInst : Bool
  validGen : Bool
deriving DecidableEq

/-- State of a `SourceModel` during `valid_cycle`: the `in_pkt` flag
(`none` embeds Python `None`), the busy flag, the per-signal buffer deques
(`self.buff`, keyed by the instantiated payload signals) and the values most
recently driven onto each handle (`none` before any drive). -/
structure SrcState where
  inPkt : Option Bool
  busy : Bool
  buffChannel : List Int
  buffData : List Int
  buffError : List Int
  drvChannel : Option Int
  drvData : Option Int
  drvError : Option Int
  drvSop : Option Bool
  drvEop : Option Bool
  drvValid : Option Bool
deriving DecidableEq

/-- Embedding of `SourceModel.valid_cycle` (avalon/streaming.py lines
350-379): peek `buff['channel'][-1]` if `channel` is instantiated, pop
`buff['data']` and `buff['error']` from the right if instantiated, compute
`remaining = max(len(b) for b in self.buff.values())` over the buffers of the
instantiated payload signals, drive the popped values, and — only when
`self.in_pkt` is truthy — drive `startofpacket` low and, if `remaining == 1`,
drive `endofpacket` high; finally drive `valid` (when instantiated and not
generated) high if anything remains and low otherwise, clearing the busy flag
when the buffers drain.  `none` models a raised `IndexError`/`ValueError`
(empty pop, empty `max`). -/
def SourceModel.valid_cycle (itf : SrcItf) (m : SrcState) : Option SrcState :=
  let chanStep : Option (Option Int) :=
    if itf.chInst then (m.buffChannel.getLast?).map some else some none
  match chanStep with
  | none => none
  | some channel =>
    let dataStep : Option (Option Int × List Int) :=
      if itf.dataInst then (dqPop m.buffData).map (fun r => (some r.1, r.2))
      else some (none, m.buffData)
    match dataStep with
    | none => none
    | some (data, buffData1) =>
      let errStep : Option (Option Int × List Int) :=
        if itf.errInst then (dqPop m.buffError).map (fun r => (some r.1, r.2))
        else some (none, m.buffError)
      match errStep with
      | none => none
      | some (error, buffError1) =>
        let lens := (if itf.chInst then [m.buffChannel.length] else [])
          ++ (if itf.dataInst then [buffData1.length] else [])
          ++ (if itf.errInst then [buffError1.length] else [])
        match lens.max? with
        | none => none
        | some remaining =>
          let m1 := { m with buffData := buffData1, buffError := buffError1 }
          let m2 := { m1 with
            drvChannel := if channel.isSome then channel else m1.drvChannel
            drvData := if data.isSome then data else m1.drvData
            drvError := if error.isSome then error else m1.drvError }
          let m3 :=
            if m2.inPkt = some true then
              let t := { m2 with drvSop := some false }
              if remaining = 1 then { t with drvEop := some true } else t
            else m2
          if remaining ≠ 0 then
            some (if itf.validInst && !itf.validGen then { m3 with drvValid := some true } else m3)
          else
            let t := if itf.validInst && !itf.validGen then { m3 with drvValid := some false } else m3
            some { t with busy := false }

/-- Streaming-source interface configuration matching the repository's test
bench: only `data` among the payload signals is instantiated, `valid` is
instantiated and not generated. -/
def c4Itf : SrcItf :=
  { chInst := false, dataInst := true, errInst := false
    validInst := true, validGen := false }

/-- Source-model state after `_load` of the packet `[1, 2, 3]` on a
packet-supporting interface: `in_pkt` is `False` — `BaseStreamingModel`
initializes it to `False` when the interface supports packets
(streaming.py line 244) and the `reset` reaction resets it to `False`
(line 252); no code path of `SourceModel` ever sets it to `True`. -/
def c4S0 : SrcState :=
  { inPkt := some false, busy := true
    buffChannel := [], buffData := dqExtendleft [] [1, 2, 3], buffError := []
    drvChannel := none, drvData := none, drvError := none
    drvSop := none, drvEop := none, drvValid := none }

/-! ## Claim theorems -/

/-- C1: the event loop is claimed to clear, on every tick, the cached value
of every control named in the reached leaf's `influences` list, so that a
generated control re-pulls exactly one value per entry into an influencing
state.  The source has this clearing loop commented out
(model.py lines 497-499): at a concrete post-advance state whose leaf
influences `valid`, the code leaves the cache untouched while the
spec-described step clears it; consequently the next `Control.capture`
returns the stale cached value and pulls nothing from the generator, whereas
after a clear it pulls exactly one fresh value. -/
theorem C1_event_loop_keeps_influence_caches :
    eventLoopAfterAdvance c1State = .ok c1State
    ∧ specEventLoopAfterAdvance c1State =
        .ok { c1State with caches := [("valid", { generated := true, cache := none })] }
    ∧ Control.captureGen { generated := true, cache := some true } [false, true]
        = some (true, { generated := true, cache := some true }, [false, true])
    ∧ Control.captureGen { generated := true, cache := none } [false, true]
        = some (false, { generated := true, cache := some false }, [true]) := by
  refine ⟨rfl, rfl, rfl, rfl⟩

/-- C2: the claim states that for an active-low signal of any width `w` and
any `v` representable in `w` bits, `drive(v)` followed by `capture()` yields
`v` again.  The source inverts with `~val & len(self.handle)` — a bitwise AND
with the width itself rather than with a `w`-bit mask — so the round trip
fails already at width 8 with `v = 1`: the drive stores `~1 & 8 = 8` in the
handle and the capture returns `~8 & 8 = 0`, not `1`.  (At width 1 the width
coincides with the 1-bit mask, which is why the round trip holds for the
1-bit controls exercised by the repository's tests.) -/
theorem C2_active_low_roundtrip_fails_at_width_8 :
    (Signal.drive { logic_active_high := false, logical_type := .int, width := 8, handle := 0 }
        none 1).1.handle = 8
    ∧ (Signal.capture ((Signal.drive
          { logic_active_high := false, logical_type := .int, width := 8, handle := 0 }
          none 1).1) none).1 = 0
    ∧ (0 : Nat) ≠ 1 := by
  refine ⟨rfl, rfl, by decide⟩

/-- C3 counterexample: the claim asserts that when the leaf reached by the
advance trigger carries the `flow` or `fix` tag, the event loop raises no
protocol error.  In the elaborated machine the `NULL` child of `TOP` carries
the `fix` tag (model.py line 413), its qualified state name is `TOP_NULL`,
and the event loop raises on exactly that state — refuting the claimed
implication at this concrete leaf. -/
theorem C3_counterexample_null_is_fix_tagged_yet_raises :
    ¬ ((("flow" ∈ ((topWrapper rootBase).children.headI).tags
          ∨ "fix" ∈ ((topWrapper rootBase).children.headI).tags)
        → eventLoopAfterAdvance
            { stateName := qualName [(topWrapper rootBase).name,
                ((topWrapper rootBase).children.headI).name]
              influences := [], caches := [] } ≠ .error .protocolError)) := by
  intro h
  exact (h (Or.inr (by decide))) rfl

/-- C3 amended: the event loop's protocol-error check consults only the
machine's state name, raising exactly when the post-advance state is
`TOP_NULL`; the tags of the reached leaf are not consulted.  In particular
the `NULL` child of `TOP` in the elaborated hierarchy is named `NULL`,
qualifies to `TOP_NULL`, and carries the `fix` tag — so the error fires on a
fix-tagged leaf, and a leaf carrying neither tag whose name differs from
`TOP_NULL` passes through unchanged. -/
theorem C3_event_loop_raises_iff_top_null :
    (∀ s : LoopState,
      eventLoopAfterAdvance s = .error .protocolError ↔ s.stateName = "TOP_NULL")
    ∧ (∀ s : LoopState, s.stateName ≠ "TOP_NULL" → eventLoopAfterAdvance s = .ok s)
    ∧ ((topWrapper rootBase).children.headI).name = "NULL"
    ∧ ((topWrapper rootBase).children.headI).tags = ["fix"]
    ∧ qualName ["TOP", "NULL"] = "TOP_NULL" := by
  refine ⟨fun s => ?_, fun s h => ?_, rfl, rfl, rfl⟩
  · unfold eventLoopAfterAdvance
    constructor
    · intro h
      by_contra hn
      simp [hn] at h
    · intro h
      simp [h]
  · unfold eventLoopAfterAdvance
    simp [h]

/-- C4: the claim states that the streaming source's reaction on
`(valid, true)` drives the buffered words in FIFO order, asserts
`endofpacket` on the last driven word of the packet and on no earlier word,
and clears `valid` and `busy` on the draining invocation.  Running the
embedded `SourceModel.valid_cycle` three times on a loaded packet `[1, 2, 3]`
(with `in_pkt = False`, the only value reachable in a source model) shows the
FIFO order and the final `valid`/`busy` clearing — but `endofpacket` is never
driven on any of the three invocations, because the driving branch is guarded
by the always-false `if self.in_pkt:` (streaming.py line 368). -/
theorem C4_source_never_drives_endofpacket :
    ((SourceModel.valid_cycle c4Itf c4S0).map
        (fun s => (s.drvData, s.drvEop, s.drvValid, s.busy))
      = some (some 1, none, some true, true))
    ∧ ((SourceModel.valid_cycle c4Itf c4S0 >>= SourceModel.valid_cycle c4Itf).map
        (fun s => (s.drvData, s.drvEop, s.drvValid, s.busy))
      = some (some 2, none, some true, true))
    ∧ ((SourceModel.valid_cycle c4Itf c4S0 >>= SourceModel.valid_cycle c4Itf
          >>= SourceModel.valid_cycle c4Itf).map
        (fun s => (s.drvData, s.drvEop, s.drvValid, s.busy))
      = some (some 3, none, some false, false)) := by
  refine ⟨rfl, rfl, rfl⟩

/-- C7 counterexample: the claim asserts that a `ready_allowance` or
`ready_latency` outside `[0, 8]` makes construction raise property-error;
with `ready_latency = 0` and `ready_allowance = 9` the constructor instead
raises the plain `ValueError` of the `Control.allowance` setter, which is not
an `InterfacePropertyError`. -/
theorem C7_counterexample_out_of_range_raises_value_error :
    StreamingInterface.readyConfig (some 0) (some 9) = .error .valueError
    ∧ Err.valueError ≠ Err.propertyError := by
  refine ⟨rfl, by decide⟩

/-- C7 amended: with an instantiated `ready` signal, `ready_latency` and
`ready_allowance` default to 0; `ready_latency > ready_allowance` raises
property-error; otherwise a value outside `[0, 8]` raises the plain
value-error of the `Control.allowance`/`latency` setters (not
property-error); in-range values with latency at most allowance are
accepted as given. -/
theorem C7_ready_config_characterization :
    StreamingInterface.readyConfig none none = .ok (0, 0)
    ∧ (∀ rl ra : Int, rl > ra →
        StreamingInterface.readyConfig (some rl) (some ra) = .error .propertyError)
    ∧ (∀ rl ra : Int, rl ≤ ra → ¬ (8 ≥ ra ∧ ra ≥ 0) →
        StreamingInterface.readyConfig (some rl) (some ra) = .error .valueError)
    ∧ (∀ rl ra : Int, rl ≤ ra → (8 ≥ ra ∧ ra ≥ 0) → ¬ (8 ≥ rl ∧ rl ≥ 0) →
        StreamingInterface.readyConfig (some rl) (some ra) = .error .valueError)
    ∧ (∀ rl ra : Int, rl ≤ ra → (8 ≥ ra ∧ ra ≥ 0) → (8 ≥ rl ∧ rl ≥ 0) →
        StreamingInterface.readyConfig (some rl) (some ra) = .ok (rl, ra)) := by
  refine ⟨rfl, ?_, ?_, ?_, ?_⟩
  · intro rl ra h
    simp [StreamingInterface.readyConfig, h]
  · intro rl ra h hra
    simp only [StreamingInterface.readyConfig, Option.getD_some]
    rw [if_neg (by omega), if_pos (by exact hra)]
  · intro rl ra h hra hrl
    simp only [StreamingInterface.readyConfig, Option.getD_some]
    rw [if_neg (by omega), if_neg (by simpa using hra), if_pos (by exact hrl)]
  · intro rl ra h hra hrl
    simp only [StreamingInterface.readyConfig, Option.getD_some]
    rw [if_neg (by omega), if_neg (by simpa using hra), if_neg (by simpa using hrl)]

/-- Witness for C7 amended at concrete inputs: latency 3 exceeding allowance
1 raises property-error, and allowance 9 with latency 0 raises value-error. -/
theorem C7_ready_config_characterization_witness :
    StreamingInterface.readyConfig (some 3) (some 1) = .error .propertyError
    ∧ StreamingInterface.readyConfig (some 0) (some 12) = .error .valueError := by
  exact ⟨C7_ready_config_characterization.2.1 3 1 (by decide),
    C7_ready_config_characterization.2.2.1 0 12 (by decide) (by decide)⟩

/-- C8: when a transaction's key set differs from the payload signal set for
the model's role (`itf._txn(primary)`), `BaseModel.input` raises value-error
as its first action: the returned model state is exactly the input state, so
the busy flag is still unset and every per-signal buffer is unmodified. -/
theorem C8_input_shape_mismatch_no_state_change (m : BaseModelState)
    (txn : List (String × List Int))
    (h : setEqB (txn.map (fun p => p.1)) (BaseInterface.txn m.itf m.primary) = false) :
    BaseModel.input m txn = (m, some .valueError) := by
  simp [BaseModel.input, h]

/-- Witness for C8: a model over a single instantiated from-primary `data`
signal rejects a transaction keyed by `bogus`, leaving the state intact. -/
theorem C8_input_shape_mismatch_no_state_change_witness :
    BaseModel.input
        { itf := [{ name := "data", instantiated := true, meta := false
                    direction := .FROM_PRIMARY }]
          primary := some true, busy := false, buff := [("data", [])] }
        [("bogus", [1])]
      = ({ itf := [{ name := "data", instantiated := true, meta := false
                     direction := .FROM_PRIMARY }]
           primary := some true, busy := false, buff := [("data", [])] },
          some .valueError) := by
  exact C8_input_shape_mismatch_no_state_change _ _ (by decide)

/-- C9: `_txn(primary)` returns exactly the names of signals that are
instantiated, not meta, and whose direction matches the role — FROM_PRIMARY
when primary is True, TO_PRIMARY when primary is False, BIDIRECTIONAL when
primary is None. -/
theorem C9_txn_names_characterization (sigs : List SigSpec) (primary : Option Bool)
    (n : String) :
    n ∈ BaseInterface.txn sigs primary ↔
      ∃ s ∈ sigs, s.name = n ∧ s.instantiated = true ∧ s.meta = false
        ∧ s.direction = claimDir primary := by
  have hdir : roleDir primary = claimDir primary := by
    rcases primary with _ | b
    · rfl
    · cases b <;> rfl
  constructor
  · intro hn
    obtain ⟨s, hsf, hname⟩ := List.mem_map.mp hn
    obtain ⟨hs, hcond⟩ := List.mem_filter.mp hsf
    simp only [Bool.and_eq_true, beq_iff_eq, Bool.not_eq_true'] at hcond
    exact ⟨s, hs, hname, hcond.1.1, hcond.1.2, hdir ▸ hcond.2⟩
  · rintro ⟨s, hs, hname, hi, hm, hd⟩
    apply List.mem_map.mpr
    refine ⟨s, List.mem_filter.mpr ⟨hs, ?_⟩, hname⟩
    simp only [Bool.and_eq_true, beq_iff_eq, Bool.not_eq_true']
    exact ⟨⟨hi, hm⟩, hdir ▸ hd⟩

/-- C6: a signal's filter is invoked on the pre-inversion (logical) value on
`drive` and on the post-inversion (logical) value on `capture`; concretely,
the value observed by the drive filter is the caller's logical value, the
value observed by the capture filter equals the value a filter-free capture
of an int-typed signal would return, a bitvector drive applies the active-low
inversion to the filter's output (filter first, inversion second), an
int-typed capture applies the filter to the already-inverted value, and a
no-op filter changes neither the driven handle value nor the captured
result. -/
theorem C6_filter_sees_logical_values :
    (∀ (s : Signal) (f : Nat → Nat) (v : Nat), (Signal.drive s (some f) v).2 = v)
    ∧ (∀ (s : Signal) (f : Nat → Nat), s.logical_type = .int →
        (Signal.capture s (some f)).2 = (Signal.capture s none).1)
    ∧ (∀ (s : Signal) (f : Nat → Nat) (v : Nat),
        s.logical_type = .bv → s.logic_active_high = false →
        ((Signal.drive s (some f) v).1).handle = pyNotAnd (f v) s.width)
    ∧ (∀ (s : Signal) (f : Nat → Nat), s.logical_type = .int →
        (Signal.capture s (some f)).1 =
          f (if s.logic_active_high then s.handle else pyNotAnd s.handle s.width))
    ∧ (∀ (s : Signal) (v : Nat),
        Signal.drive s (some (fun x => x)) v = Signal.drive s none v)
    ∧ (∀ (s : Signal), Signal.capture s (some (fun x => x)) = Signal.capture s none) := by
  refine ⟨fun s f v => rfl, ?_, ?_, ?_, ?_, fun s => rfl⟩
  · intro s f h
    simp [Signal.capture, h]
  · intro s f v h1 h2
    simp [Signal.drive, h1, h2]
  · intro s f h
    simp [Signal.capture, h]
  · intro s v
    cases h : s.logical_type <;> simp [Signal.drive, h]

/-- Witness for C6 at a concrete active-low signal: an int capture lets the
filter observe the inverted value a filter-free capture would return, and a
bitvector drive inverts the filter's output. -/
theorem C6_filter_sees_logical_values_witness :
    (Signal.capture
        { logic_active_high := false, logical_type := .int, width := 1, handle := 0 }
        (some (fun x => x + 1))).2
      = (Signal.capture
          { logic_active_high := false, logical_type := .int, width := 1, handle := 0 }
          none).1
    ∧ ((Signal.drive
          { logic_active_high := false, logical_type := .bv, width := 1, handle := 0 }
          (some (fun x => x)) 1).1).handle
      = pyNotAnd ((fun x => x) 1) 1 := by
  exact ⟨C6_filter_sees_logical_values.2.1 _ (fun x => x + 1) rfl,
    C6_filter_sees_logical_values.2.2.1 _ (fun x => x) 1 rfl rfl⟩

/-- Helper: a signal list containing a control has a control-precedence
maximum. -/
theorem pmaxOf_isSome (l : List Sig) (h : l.any (fun s => s.isCtl) = true) :
    ∃ m, pmaxOf l = some m := by
  induction l with
  | nil => simp at h
  | cons s rest ih =>
    cases hc : s.isCtl with
    | true =>
      cases hr : pmaxOf rest with
      | none => exact ⟨s.precedence, by simp [pmaxOf, hc, hr]⟩
      | some m => exact ⟨max s.precedence m, by simp [pmaxOf, hc, hr]⟩
    | false =>
      have hr : rest.any (fun s => s.isCtl) = true := by
        simpa [List.any_cons, hc] using h
      obtain ⟨m, hm⟩ := ih hr
      exact ⟨m, by simp [pmaxOf, hc, hm]⟩

/-- Helper: a list with no control-precedence maximum has no controls. -/
theorem pmaxOf_none (l : List Sig) (h : pmaxOf l = none) :
    ∀ c ∈ l, c.isCtl = false := by
  induction l with
  | nil => intro c hc; simp at hc
  | cons s rest ih =>
    cases hc : s.isCtl with
    | true => simp [pmaxOf, hc] at h
    | false =>
      intro c hcmem
      rcases List.mem_cons.mp hcmem with rfl | hmem
      · exact hc
      · have hr : pmaxOf rest = none := by simpa [pmaxOf, hc] using h
        exact ih hr c hmem

/-- Helper: the control-precedence maximum is attained by a control of the
list and bounds every control of the list. -/
theorem pmaxOf_spec (l : List Sig) (m : Int) (h : pmaxOf l = some m) :
    (∃ c ∈ l, c.isCtl = true ∧ c.precedence = m)
    ∧ (∀ c ∈ l, c.isCtl = true → c.precedence ≤ m) := by
  induction l generalizing m with
  | nil => simp [pmaxOf] at h
  | cons s rest ih =>
    cases hc : s.isCtl with
    | false =>
      have hr : pmaxOf rest = some m := by simpa [pmaxOf, hc] using h
      obtain ⟨⟨c, hcm, hcc, hcp⟩, hall⟩ := ih m hr
      refine ⟨⟨c, List.mem_cons_of_mem _ hcm, hcc, hcp⟩, ?_⟩
      intro c hcmem hctl
      rcases List.mem_cons.mp hcmem with rfl | hmem
      · exact absurd hctl (by simp [hc])
      · exact hall c hmem hctl
    | true =>
      cases hr : pmaxOf rest with
      | none =>
        have hm : m = s.precedence := by
          have := h
          simp [pmaxOf, hc, hr] at this
          omega
        subst hm
        refine ⟨⟨s, List.mem_cons_self _ _, hc, rfl⟩, ?_⟩
        intro c hcmem hctl
        rcases List.mem_cons.mp hcmem with rfl | hmem
        · exact le_refl _
        · exact absurd hctl (by simp [pmaxOf_none rest hr c hmem])
      | some m' =>
        have hm : m = max s.precedence m' := by
          have := h
          simp [pmaxOf, hc, hr] at this
          omega
        subst hm
        obtain ⟨⟨c, hcm, hcc, hcp⟩, hall⟩ := ih m' hr
        refine ⟨?_, ?_⟩
        · rcases le_total m' s.precedence with h1 | h1
          · exact ⟨s, List.mem_cons_self _ _, hc, (max_eq_left h1).symm⟩
          · exact ⟨c, List.mem_cons_of_mem _ hcm, hcc, by rw [hcp, max_eq_right h1]⟩
        · intro c hcmem hctl
          rcases List.mem_cons.mp hcmem with rfl | hmem
          · exact le_max_left _ _
          · exact le_trans (hall c hmem hctl) (le_max_right _ _)

/-- C5: when `_specify` receives a spec containing controls, the `precedes`
branch takes the maximum precedence among the new controls as offset and adds
offset + 1 to every pre-existing control while leaving the new controls
untouched; without `precedes` every new control is shifted up by the
pre-existing `pmax` plus 1 while existing controls stay, and nothing is
shifted when the interface previously had no controls.  The final conjunct
spells out that `shiftControls` raises exactly the controls' precedences by
the given amount and leaves non-controls alone. -/
theorem C5_specify_precedence_shift (existing spec : List Sig)
    (h : spec.any (fun s => s.isCtl) = true) :
    (∃ m, pmaxOf spec = some m
      ∧ (∃ c ∈ spec, c.isCtl = true ∧ c.precedence = m)
      ∧ (∀ c ∈ spec, c.isCtl = true → c.precedence ≤ m)
      ∧ specifyPrec existing spec true = (shiftControls existing (m + 1), spec))
    ∧ (∀ m, pmaxOf existing = some m →
        specifyPrec existing spec false = (existing, shiftControls spec (m + 1)))
    ∧ (pmaxOf existing = none → specifyPrec existing spec false = (existing, spec))
    ∧ (∀ (l : List Sig) (d : Int),
        shiftControls l d = l.map (fun s =>
          if s.isCtl then { s with precedence := s.precedence + d } else s)) := by
  refine ⟨?_, ?_, ?_, fun l d => rfl⟩
  · obtain ⟨m, hm⟩ := pmaxOf_isSome spec h
    obtain ⟨hex, hall⟩ := pmaxOf_spec spec m hm
    exact ⟨m, hm, hex, hall, by simp [specifyPrec, h, hm]⟩
  · intro m hm
    simp [specifyPrec, h, hm]
  · intro hm
    simp [specifyPrec, h, hm]

/-- Witness for C5 at concrete signal lists: with one existing control of
precedence 0 and one new control of precedence 5, `precedes` shifts the
existing control to 6 and keeps the new one at 5, while the non-`precedes`
call shifts the new control to 6 and keeps the existing one at 0. -/
theorem C5_specify_precedence_shift_witness :
    specifyPrec [{ sid := 1, name := "a", isCtl := true, precedence := 0 }]
        [{ sid := 2, name := "b", isCtl := true, precedence := 5 }] true
      = ([{ sid := 1, name := "a", isCtl := true, precedence := 6 }],
         [{ sid := 2, name := "b", isCtl := true, precedence := 5 }])
    ∧ specifyPrec [{ sid := 1, name := "a", isCtl := true, precedence := 0 }]
        [{ sid := 2, name := "b", isCtl := true, precedence := 5 }] false
      = ([{ sid := 1, name := "a", isCtl := true, precedence := 0 }],
         [{ sid := 2, name := "b", isCtl := true, precedence := 6 }]) := by
  have h := C5_specify_precedence_shift
    [{ sid := 1, name := "a", isCtl := true, precedence := 0 }]
    [{ sid := 2, name := "b", isCtl := true, precedence := 5 }] (by decide)
  constructor
  · obtain ⟨m, hm, _, _, h1⟩ := h.1
    have hm5 : m = 5 := by simpa [pmaxOf] using hm.symm
    rw [hm5] at h1
    rw [h1]
    decide
  · have h2 := h.2.1 0 (by simp [pmaxOf])
    rw [h2]
    decide

/-- Witness for the amended C3 at a concrete state: a post-advance state
named differently from `TOP_NULL` passes the event loop unchanged. -/
theorem C3_event_loop_raises_iff_top_null_witness :
    eventLoopAfterAdvance { stateName := "TOP_ROOT", influences := [], caches := [] }
      = .ok { stateName := "TOP_ROOT", influences := [], caches := [] } := by
  exact C3_event_loop_raises_iff_top_null.2.1 _ (by decide)

/-- Helper: CPython `set.add` preserves hash freshness and distinctness of
control precedences; the added element is stored with its current hash, and
a colliding control is always dropped against a fresh-hashed set. -/
theorem pyAdd_preserves_fresh_noDup (l : List StoredSig) (c : Sig)
    (hf : hashFresh l) (hd : noDupCtl (l.map (fun t => t.sig))) :
    hashFresh (pyAdd l c) ∧ noDupCtl ((pyAdd l c).map (fun t => t.sig)) := by
  rw [pyAdd]
  split
  · exact ⟨hf, hd⟩
  · next hany =>
    constructor
    · intro t ht
      rcases List.mem_append.mp ht with h1 | h1
      · exact hf t h1
      · rw [List.mem_singleton] at h1
        subst h1
        rfl
    · rw [List.map_append, noDupCtl, List.pairwise_append]
      refine ⟨hd, List.pairwise_singleton _ _, ?_⟩
      intro a ha b hb
      simp only [List.map_cons, List.map_nil, List.mem_singleton] at hb
      intro hcon
      obtain ⟨hca, hcb, hp⟩ := hcon
      rw [hb] at hcb hp
      obtain ⟨e, hel, rfl⟩ := List.mem_map.mp ha
      apply hany
      apply List.any_eq_true.mpr
      refine ⟨e, hel, ?_⟩
      have h1 : e.storedHash = c.precedence := by
        rw [hf e hel]
        simp [pyHash, hca, hp]
      simp [sigBEq, hca, hcb, hp, h1, pyHash]

/-- Helper: folding CPython `set.add` over any spec preserves hash freshness
and distinctness of control precedences. -/
theorem foldl_pyAdd_preserves_fresh_noDup (spec : List Sig) (acc : List StoredSig)
    (hf : hashFresh acc) (hd : noDupCtl (acc.map (fun t => t.sig))) :
    hashFresh (spec.foldl pyAdd acc)
    ∧ noDupCtl ((spec.foldl pyAdd acc).map (fun t => t.sig)) := by
  induction spec generalizing acc with
  | nil => exact ⟨hf, hd⟩
  | cons s rest ih =>
    obtain ⟨h1, h2⟩ := pyAdd_preserves_fresh_noDup acc s hf hd
    exact ih _ h1 h2

/-- Helper: without `precedes`, the precedence-adjustment step leaves the
stored set members untouched (only the incoming spec is shifted). -/
theorem specifyPrecStored_false_fst (existing : List StoredSig) (spec : List Sig) :
    (specifyPrecStored existing spec false).1 = existing := by
  unfold specifyPrecStored
  split
  · rw [if_neg (by simp)]
    split <;> rfl
  · rfl

/-- C10 counterexample: the claim asserts that adding via `_specify` a
Control whose precedence equals that of a Control already in the set leaves
the set unchanged.  With `precedes = True`, the shift mutates the stored
control in place (existing control at precedence -1 moves to 0) without
rehashing it, so the stored hash -1 no longer matches the new control's hash
0 and CPython stores the new control instead of dropping it: the set ends
with two controls both at precedence 0, violating the claimed
at-most-one-control-per-precedence invariant. -/
theorem C10_counterexample_stale_hash_stores_duplicate :
    BaseInterface.specify
        [{ sig := { sid := 1, name := "a", isCtl := true, precedence := -1 }
           storedHash := -1 }]
        [{ sid := 2, name := "b", isCtl := true, precedence := 0 }] true
      = .ok [ { sig := { sid := 1, name := "a", isCtl := true, precedence := 0 }
                storedHash := -1 }
            , { sig := { sid := 2, name := "b", isCtl := true, precedence := 0 }
                storedHash := 0 } ]
    ∧ ¬ noDupCtl [ { sid := 1, name := "a", isCtl := true, precedence := 0 }
                 , { sid := 2, name := "b", isCtl := true, precedence := 0 } ] := by
  constructor
  · rfl
  · intro h
    unfold noDupCtl at h
    exact (List.pairwise_cons.mp h).1 _ (List.mem_singleton.mpr rfl) ⟨rfl, rfl, rfl⟩

/-- C10 amended: CPython set membership compares the hash stored with each
entry at insertion time, so an equal-precedence control added via `set.add`
is silently dropped exactly when the matching stored control's hash is still
fresh (equal to its current precedence).  A `precedes = False` `_specify`
call never mutates stored members, so it preserves hash freshness and the
at-most-one-control-per-precedence invariant of the signal set; concretely,
a new control whose shifted precedence collides with a stored control's
precedence is dropped and the set returned unchanged.  (After a
`precedes = True` shift the stored hashes go stale and the drop no longer
happens, as the counterexample shows.) -/
theorem C10_equal_precedence_drop_requires_fresh_hash :
    (∀ (sigs : List StoredSig) (c : Sig), c.isCtl = true →
      (∃ e ∈ sigs, e.sig.isCtl = true ∧ e.sig.precedence = c.precedence
        ∧ e.storedHash = pyHash e.sig) →
      pyAdd sigs c = sigs)
    ∧ (∀ (existing : List StoredSig) (spec : List Sig) (out : List StoredSig),
        BaseInterface.specify existing spec false = .ok out →
        hashFresh existing → noDupCtl (existing.map (fun t => t.sig)) →
        hashFresh out ∧ noDupCtl (out.map (fun t => t.sig)))
    ∧ BaseInterface.specify
        [{ sig := { sid := 1, name := "a", isCtl := true, precedence := 0 }
           storedHash := 0 }]
        [{ sid := 2, name := "b", isCtl := true, precedence := -1 }] false
      = .ok [{ sig := { sid := 1, name := "a", isCtl := true, precedence := 0 }
               storedHash := 0 }] := by
  refine ⟨?_, ?_, ?_⟩
  · intro sigs c hc he
    obtain ⟨e, he, hec, hep, hfr⟩ := he
    rw [pyAdd, if_pos]
    apply List.any_eq_true.mpr
    refine ⟨e, he, ?_⟩
    have h1 : e.storedHash = c.precedence := by
      rw [hfr]
      simp [pyHash, hec, hep]
    simp [sigBEq, hec, hc, hep, h1, pyHash]
  · intro existing spec out hok hf hd
    unfold BaseInterface.specify at hok
    split at hok
    · exact absurd hok (by simp)
    · simp only [Except.ok.injEq] at hok
      subst hok
      rw [specifyPrecStored_false_fst existing spec]
      exact foldl_pyAdd_preserves_fresh_noDup _ _ hf hd
  · rfl

/-- Witness for C10 amended: adding a control of precedence 0 to a set
holding a fresh-hashed (differently named) control of precedence 0 returns
the set unchanged. -/
theorem C10_equal_precedence_drop_requires_fresh_hash_witness :
    pyAdd [{ sig := { sid := 1, name := "a", isCtl := true, precedence := 0 }
             storedHash := 0 }]
        { sid := 2, name := "b", isCtl := true, precedence := 0 }
      = [{ sig := { sid := 1, name := "a", isCtl := true, precedence := 0 }
           storedHash := 0 }] := by
  exact C10_equal_precedence_drop_requires_fresh_hash.1 _ _ (by decide)
    ⟨{ sig := { sid := 1, name := "a", isCtl := true, precedence := 0 }, storedHash := 0 },
      by decide, by decide, by decide, by decide⟩
